import Mathlib

/-!
Verification development for the MarketPulsePro market-data pipeline.

The Lean definitions below are a shallow embedding of the Python source:

* `src/src/services/news_service.py` — news dedup engine
  (`NewsService._remove_duplicates`, `NewsService._similarity`);
* `src/src/services/price_service.py` — price fetch adapters
  (`get_gold_prices`, `get_currency_prices`, `get_crypto_prices`,
  `get_all_prices`) over a 30-second TTL cache (`cachetools.TTLCache`);
* `src/MarketPulsePro/src/services/price_service.py` — the alternative
  revision of the price service with a hand-rolled `cache`/`cache_time`
  pair of dicts;
* `src/src/services/scheduler.py` — the periodic refresh jobs and their
  statistics dictionary;
* `src/src/services/channel_service.py` and `src/src/utils/decorators.py`
  — the required-channel entitlement gate.

Numbers that Python treats as floats are modelled as rationals (`ℚ`);
timestamps (`datetime.now()`) are modelled as a `Nat` parameter `now`
threaded explicitly.  HTTP calls are modelled by a `FetchOutcome`
parameter carrying either a failure kind or a status code with an
already-JSON-decoded body, so every adapter is a pure function of its
cache state, the clock and the wire response.
-/

namespace MarketPulse

/-! ## News dedup engine (`news_service.py`) -/

/-- The stop-word set `common_words` of `NewsService._similarity`. -/
def commonWords : List String := ["در", "با", "از", "به", "برای", "و", "یا", "هم", "نیز"]

/-- Python `str.lower()`, written over the character list so that it
evaluates inside the kernel.  The titles this system handles are Persian
and ASCII; on those `Char.toLower` agrees with Python's `lower`. -/
def pyToLower (s : String) : String :=
  String.mk (s.data.map Char.toLower)

/-- Worker for `pySplit`: `cur` holds the (reversed) current word. -/
def pySplitAux : List Char → List Char → List String
  | [], cur => if cur.isEmpty then [] else [String.mk cur.reverse]
  | c :: cs, cur =>
    if c.isWhitespace then
      if cur.isEmpty then pySplitAux cs []
      else String.mk cur.reverse :: pySplitAux cs []
    else pySplitAux cs (c :: cur)

/-- Python `str.split()`: split on whitespace runs, dropping empty pieces. -/
def pySplit (s : String) : List String :=
  pySplitAux s.data []

/-- `set(str.split()) - common_words`: the word set used by `_similarity`.
A Python `set` is modelled as a duplicate-free list; only emptiness and the
intersection/union cardinalities of these sets are ever consumed, and those
are insensitive to the order of a duplicate-free list. -/
def titleWords (s : String) : List String :=
  ((pySplit s).filter (fun w => w ∉ commonWords)).dedup

/-- Cardinality of the set intersection of two duplicate-free lists. -/
def interCard (w1 w2 : List String) : Nat :=
  (w1.filter (fun w => w ∈ w2)).length

/-- Cardinality of the set union of two duplicate-free lists. -/
def unionCard (w1 w2 : List String) : Nat :=
  (w1 ++ w2.filter (fun w => w ∉ w1)).length

/-- `NewsService._similarity`: Jaccard index of the two stop-word-stripped
word sets, `0.0` when either set is empty. -/
def similarity (s1 s2 : String) : ℚ :=
  let words1 := titleWords s1
  let words2 := titleWords s2
  if words1 = [] ∨ words2 = [] then 0
  else
    if unionCard words1 words2 = 0 then 0
    else (interCard words1 words2 : ℚ) / (unionCard words1 words2 : ℚ)

/-- A normalized news item as produced by `NewsService._fetch_feed`. -/
structure NewsItem where
  title : String
  link : String
  description : String
  source : String
  published : Nat
  category : String
deriving DecidableEq, Repr

/-- The comparison `self._similarity(title, seen_title) > 0.8` of
`_remove_duplicates`, in cross-multiplied integer form so that it
evaluates inside the kernel.  `simAbove_iff_similarity` below proves it
equal to `similarity title s > 4/5`. -/
def simAbove (title s : String) : Bool :=
  let words1 := titleWords title
  let words2 := titleWords s
  !words1.isEmpty && !words2.isEmpty &&
    decide (5 * interCard words1 words2 > 4 * unionCard words1 words2)

/-- The duplicate test of `_remove_duplicates`: some already-seen title has
similarity strictly above `0.8` with the candidate title. -/
def isDuplicate (seen : List String) (title : String) : Bool :=
  seen.any (fun s => simAbove title s)

/-- The loop of `NewsService._remove_duplicates`, with the `seen_titles`
set carried as the accumulator (the Python `set` is unordered and only
queried through an existential `any`, so a list models it faithfully). -/
def removeDuplicatesAux (seen : List String) : List NewsItem → List NewsItem
  | [] => []
  | item :: rest =>
    let title := pyToLower item.title
    if isDuplicate seen title then
      removeDuplicatesAux seen rest
    else
      item :: removeDuplicatesAux (title :: seen) rest

/-- `NewsService._remove_duplicates`. -/
def removeDuplicates (items : List NewsItem) : List NewsItem :=
  removeDuplicatesAux [] items

/-- Spec-side dedup pass, written from the words of §4.4 of the spec with
the threshold the code actually uses: walk the list keeping the accepted
items, dropping a candidate exactly when its similarity with some
previously accepted title is strictly greater than `0.8`. -/
def specDedupeAux (accepted : List NewsItem) : List NewsItem → List NewsItem
  | [] => []
  | item :: rest =>
    if accepted.any (fun a =>
        decide (similarity (pyToLower item.title) (pyToLower a.title) > 4/5)) then
      specDedupeAux accepted rest
    else
      item :: specDedupeAux (accepted ++ [item]) rest

/-- Spec-side dedup pass over a whole list. -/
def specDedupe (items : List NewsItem) : List NewsItem :=
  specDedupeAux [] items

/-! ## Wire responses and caches (`price_service.py`) -/

/-- Outcome of one HTTP request: a timeout (`asyncio.TimeoutError`), any
other raised exception (connection error, unparsable JSON, …), or a
response with a status code and an already-decoded JSON body. -/
inductive FetchOutcome (α : Type) where
  | timeout : FetchOutcome α
  | exn : FetchOutcome α
  | response (status : Nat) (body : α) : FetchOutcome α
deriving DecidableEq, Repr

/-- `resp` is one of the failure shapes: timeout, exception, or a
non-`200` status. -/
def FetchOutcome.failed {α : Type} : FetchOutcome α → Bool
  | .timeout => true
  | .exn => true
  | .response status _ => status != 200

/-- One entry of a `cachetools.TTLCache` (ttl = 30 s for prices): the
stored value and its absolute expiry instant. -/
structure TTLEntry (α : Type) where
  value : α
  expiresAt : Nat
deriving DecidableEq, Repr

/-- `key in cache` / `cache[key]` on a `TTLCache`: an expired entry is
treated as absent. -/
def ttlLookup {α : Type} (entry : Option (TTLEntry α)) (now : Nat) : Option α :=
  match entry with
  | none => none
  | some e => if now < e.expiresAt then some e.value else none

/-- One field of a TGJU JSON record: `none` when the record has no such
key (or is not a dict), `some none` when the key is present but its value
does not parse as a float, `some (some q)` when it parses to `q`. -/
def TGJUField : Type := Option (Option ℚ)

/-- A TGJU record as consumed by the adapters: its `"p"` (price) and
`"d"` (daily change) fields. -/
structure TGJUItem where
  p : TGJUField
  d : TGJUField

/-- The decoded TGJU body: an association list of top-level keys. -/
def TGJUData : Type := List (String × TGJUItem)

/-- Dict lookup on the decoded TGJU body. -/
def tgjuGet (data : TGJUData) (key : String) : Option TGJUItem :=
  (data.find? (fun kv => kv.1 == key)).map (fun kv => kv.2)

/-- The `gold_prices` dict built by the loop of `get_gold_prices`
(`src/src`): a key is present with value `q` exactly when the record has
a `"p"` field that parses as a float (`except (ValueError, TypeError):
pass` skips everything else), then `.get(key, 0)` defaults to `0`. -/
def goldPriceOf (data : TGJUData) (key : String) : ℚ :=
  (((tgjuGet data key).bind (fun it => it.p)).bind (fun pq => pq)).getD 0

/-- The normalized gold payload of `get_gold_prices` (`src/src`). -/
structure GoldPayload where
  gold_18k : ℚ
  gold_24k : ℚ
  coin_emami : ℚ
  coin_nim : ℚ
  coin_rob : ℚ
  coin_gerami : ℚ
  ounce : ℚ
  mithqal : ℚ
  gold_change_24h : ℚ
  timestamp : Nat
deriving DecidableEq, Repr

/-- The `result` mapping of `get_gold_prices` (`src/src`), lines 106-122. -/
def mapGold (data : TGJUData) (now : Nat) : GoldPayload where
  gold_18k := goldPriceOf data "price_gram_18k"
  gold_24k := goldPriceOf data "price_gram_24k"
  coin_emami := goldPriceOf data "coin_emami"
  coin_nim := goldPriceOf data "coin_nim"
  coin_rob := goldPriceOf data "coin_rob"
  coin_gerami := goldPriceOf data "coin_gerami"
  ounce := goldPriceOf data "price_ounce"
  mithqal := goldPriceOf data "price_mithqal"
  gold_change_24h := 0
  timestamp := now

/-- `PriceService.get_gold_prices` of `src/src/services/price_service.py`:
given the current `"gold_prices"` cache slot, the clock and the wire
response, it returns the payload handed to the caller (`none` models the
empty dict `{}`) and the new cache slot.  On any failure it returns `{}`
— there is no fallback to an expired cached value. -/
def get_gold_prices (cache : Option (TTLEntry GoldPayload)) (now : Nat)
    (resp : FetchOutcome TGJUData) :
    Option GoldPayload × Option (TTLEntry GoldPayload) :=
  match ttlLookup cache now with
  | some v => (some v, cache)
  | none =>
    match resp with
    | .response status data =>
      if status = 200 then
        let result := mapGold data now
        (some result, some ⟨result, now + 30⟩)
      else (none, cache)
    | _ => (none, cache)

/-- The normalized currency payload of `get_currency_prices` (`src/src`).
A field is `none` when its TGJU key is absent (the Python dict then has
no such key at all) and `some 0` when the key is there but its price does
not parse. -/
structure CurrencyPayload where
  usd : Option ℚ
  eur : Option ℚ
  gbp : Option ℚ
  aed : Option ℚ
  tryLira : Option ℚ
  usd_change_24h : ℚ
  timestamp : Nat
deriving DecidableEq, Repr

/-- One entry of the `currencies` dict of `get_currency_prices`: absent
when `tgju_key not in data` or `'p' not in data[tgju_key]`, `0` when the
conversion raises, the parsed value otherwise. -/
def currencyOf (data : TGJUData) (tgjuKey : String) : Option ℚ :=
  match (tgjuGet data tgjuKey).bind (fun it => it.p) with
  | none => none
  | some none => some 0
  | some (some q) => some q

/-- `PriceService.get_currency_prices` of `src/src`: same control flow as
`get_gold_prices`, with the currency mapping of lines 155-172. -/
def get_currency_prices (cache : Option (TTLEntry CurrencyPayload)) (now : Nat)
    (resp : FetchOutcome TGJUData) :
    Option CurrencyPayload × Option (TTLEntry CurrencyPayload) :=
  match ttlLookup cache now with
  | some v => (some v, cache)
  | none =>
    match resp with
    | .response status data =>
      if status = 200 then
        let result : CurrencyPayload :=
          { usd := currencyOf data "price_dollar_rl"
            eur := currencyOf data "price_eur"
            gbp := currencyOf data "price_gbp"
            aed := currencyOf data "price_aed"
            tryLira := currencyOf data "price_try"
            usd_change_24h := 0
            timestamp := now }
        (some result, some ⟨result, now + 30⟩)
      else (none, cache)
    | _ => (none, cache)

/-- A coin object of the CoinGecko response body, each field `none` when
the JSON object lacks that key. -/
structure CoinObj where
  id : Option String
  symbol : Option String
  name : Option String
  current_price : Option ℚ
  price_change_percentage_24h : Option ℚ
  market_cap : Option ℚ
  total_volume : Option ℚ
  image : Option String
deriving DecidableEq, Repr

/-- A normalized crypto entry as appended by `get_crypto_prices`. -/
structure CryptoEntry where
  id : String
  symbol : String
  name : String
  price : ℚ
  change_24h : ℚ
  market_cap : ℚ
  volume : ℚ
  image : String
deriving DecidableEq, Repr

/-- One iteration of the loop of `get_crypto_prices` (`src/src`, lines
227-237): direct indexing (`coin["id"]`, `coin["market_cap"]`, …) raises
`KeyError` when the key is missing — modelled as `none` — while
`coin.get("price_change_percentage_24h", 0)` defaults to `0`. -/
def normCoin (coin : CoinObj) : Option CryptoEntry := do
  let i ← coin.id
  let sy ← coin.symbol
  let n ← coin.name
  let pr ← coin.current_price
  let mc ← coin.market_cap
  let tv ← coin.total_volume
  let im ← coin.image
  pure { id := i, symbol := sy, name := n, price := pr,
         change_24h := coin.price_change_percentage_24h.getD 0,
         market_cap := mc, volume := tv, image := im }

/-- The `for coin in data` loop of `get_crypto_prices`: one normalized
entry is appended per record, and a `KeyError` on any record aborts the
whole loop (`none`). -/
def normalizeCoins : List CoinObj → Option (List CryptoEntry)
  | [] => some []
  | coin :: rest =>
    match normCoin coin, normalizeCoins rest with
    | some e, some l => some (e :: l)
    | _, _ => none

/-- `PriceService.get_crypto_prices` of `src/src`: a `KeyError` inside
the loop escapes to the blanket `except Exception` which returns `[]`, so
a single record missing a directly-indexed field empties the whole
result; timeouts, exceptions and non-200 statuses also return `[]`. -/
def get_crypto_prices (cache : Option (TTLEntry (List CryptoEntry))) (now : Nat)
    (resp : FetchOutcome (List CoinObj)) :
    List CryptoEntry × Option (TTLEntry (List CryptoEntry)) :=
  match ttlLookup cache now with
  | some v => (v, cache)
  | none =>
    match resp with
    | .response status data =>
      if status = 200 then
        match normalizeCoins data with
        | some cryptos => (cryptos, some ⟨cryptos, now + 30⟩)
        | none => ([], cache)
      else ([], cache)
    | _ => ([], cache)

/-- The combined dict built by `get_all_prices` (`src/src`): the merged
gold and currency dicts (`none` models a sub-fetch that produced `{}`),
the crypto list, and the optional bitcoin shortcut fields. -/
structure CombinedPrices where
  gold : Option GoldPayload
  currency : Option CurrencyPayload
  crypto_list : List CryptoEntry
  bitcoin : Option (ℚ × ℚ)
deriving DecidableEq, Repr

/-- `PriceService.get_all_prices` of `src/src`, parameterized by the
results of the three sub-fetches (each of which already absorbs its own
failures, so the `isinstance(..., Exception)` arms never fire): merge,
extract the `btc` shortcut, and cache the combined dict for 30 s.  The
function is total — every failure shape yields a payload, never an
exception. -/
def get_all_prices (cache : Option (TTLEntry CombinedPrices)) (now : Nat)
    (gold : Option GoldPayload) (currency : Option CurrencyPayload)
    (crypto : List CryptoEntry) :
    CombinedPrices × Option (TTLEntry CombinedPrices) :=
  match ttlLookup cache now with
  | some v => (v, cache)
  | none =>
    let btc := crypto.find? (fun c => c.symbol == "btc")
    let prices : CombinedPrices :=
      { gold := gold, currency := currency, crypto_list := crypto
        bitcoin := btc.map (fun b => (b.price, b.change_24h)) }
    (prices, some ⟨prices, now + 30⟩)

/-! ## The `MarketPulsePro/` revision of the price service -/

/-- The gold payload of `MarketPulsePro/src/services/price_service.py`
(`get_gold_prices`, lines 61-73). -/
structure MGoldPayload where
  k18 : ℚ
  k24 : ℚ
  ounce : ℚ
  mithqal : ℚ
  coin_emami : ℚ
  coin_nim : ℚ
  coin_rob : ℚ
  coin_gerami : ℚ
  change_24h : ℚ
  change_7d : ℚ
  timestamp : Nat
deriving DecidableEq, Repr

/-- `PriceService._extract_price` of the `MarketPulsePro` revision:
`float(data[key]["p"])` guarded by key membership with a blanket
`except` returning `0.0`. -/
def mpp_extract_price (data : TGJUData) (key : String) : ℚ :=
  (((tgjuGet data key).bind (fun it => it.p)).bind (fun pq => pq)).getD 0

/-- `PriceService._extract_change` of the `MarketPulsePro` revision:
`float(data[key]["d"].replace("%", ""))` with the same defaulting. -/
def mpp_extract_change (data : TGJUData) (key : String) : ℚ :=
  (((tgjuGet data key).bind (fun it => it.d)).bind (fun dq => dq)).getD 0

/-- `PriceService._is_cached` of the `MarketPulsePro` revision: the key
is in both plain dicts and the entry is younger than 30 s.  The dicts
are never evicted, so an expired value stays around for the fallback
path. -/
def mpp_is_cached {α : Type} (cache : Option α) (ctime : Option Nat) (now : Nat) : Bool :=
  cache.isSome && (match ctime with
    | some t0 => now - t0 < 30
    | none => false)

/-- The `gold_data` mapping of the `MarketPulsePro` `get_gold_prices`. -/
def mpp_map_gold (data : TGJUData) (now : Nat) : MGoldPayload where
  k18 := mpp_extract_price data "price_gram_18k"
  k24 := mpp_extract_price data "price_gram_24k"
  ounce := mpp_extract_price data "price_ounce"
  mithqal := mpp_extract_price data "price_mithqal"
  coin_emami := mpp_extract_price data "coin_emami"
  coin_nim := mpp_extract_price data "coin_nim"
  coin_rob := mpp_extract_price data "coin_rob"
  coin_gerami := mpp_extract_price data "coin_gerami"
  change_24h := mpp_extract_change data "price_gram_24k"
  change_7d := 0
  timestamp := now

/-- `PriceService.get_gold_prices` of the `MarketPulsePro` revision:
cache hit inside the 30-second window, otherwise fetch; any failure
(timeout, exception, non-200 status) falls through to
`return self.cache.get(cache_key, {})`, i.e. the previous value however
old, or the empty dict (`none`) when none exists.  Result: the payload
handed to the caller, then the new `cache` and `cache_time` slots. -/
def mpp_get_gold_prices (cache : Option MGoldPayload) (ctime : Option Nat) (now : Nat)
    (resp : FetchOutcome TGJUData) :
    Option MGoldPayload × Option MGoldPayload × Option Nat :=
  if mpp_is_cached cache ctime now then
    (cache, cache, ctime)
  else
    match resp with
    | .response status data =>
      if status = 200 then
        let gold := mpp_map_gold data now
        (some gold, some gold, some now)
      else (cache, cache, ctime)
    | _ => (cache, cache, ctime)

/-! ## Scheduler statistics (`scheduler.py`) -/

/-- The `self.stats` dict of `SchedulerService`. -/
structure SchedStats where
  price_updates : Nat
  news_updates : Nat
  last_price_update : Option Nat
  last_news_update : Option Nat
deriving DecidableEq, Repr

/-- `SchedulerService.update_prices`: the tick `await`s
`get_all_prices` and bumps the statistics; only a raised exception — the
`except` arm — skips the bump.  The awaited call is passed in as an
`Except` so both arms of the `try` are visible. -/
def update_prices (stats : SchedStats) (now : Nat)
    (fetch : Except Unit CombinedPrices) : SchedStats :=
  match fetch with
  | .ok _ =>
    { stats with price_updates := stats.price_updates + 1, last_price_update := some now }
  | .error _ => stats

/-- `SchedulerService.update_news`, same shape over `get_latest_news`. -/
def update_news (stats : SchedStats) (now : Nat)
    (fetch : Except Unit (List NewsItem)) : SchedStats :=
  match fetch with
  | .ok _ =>
    { stats with news_updates := stats.news_updates + 1, last_news_update := some now }
  | .error _ => stats

/-! ## Interleaving model of concurrent cache reads

`get_gold_prices` (and `get_latest_news`) run on a single asyncio event
loop, so each coroutine executes atomically between `await` points.  A
reader of an expired/absent key performs two atomic segments:

1. check `cache_key in self.cache`; on a hit return the cached value, on
   a miss issue the upstream request (this is where the fetch count
   grows) and suspend on the `await`;
2. resume with the response, write `self.cache[cache_key] = result` and
   return it.

There is no lock or in-flight registry anywhere in the source, so
nothing serializes segment 1 across callers.  `runReaders` executes any
interleaving (`schedule` lists which caller advances next) of `k`
callers over one key whose entry is initially expired/absent. -/
inductive ReaderState (α : Type) where
  | start : ReaderState α
  | fetching (v : α) : ReaderState α
  | done (v : α) : ReaderState α
deriving DecidableEq, Repr

/-- Global state of the interleaving: the cache slot for the key, the
number of upstream fetches issued so far, and each caller's state. -/
structure FlightState (α : Type) where
  cache : Option α
  fetches : Nat
  callers : List (ReaderState α)
deriving DecidableEq, Repr

/-- Advance caller `i` by one atomic segment.  `upstream n` is the value
returned by the `n`-th upstream fetch to be issued. -/
def stepReader {α : Type} (upstream : Nat → α) (st : FlightState α) (i : Nat) :
    FlightState α :=
  match st.callers.get? i with
  | none => st
  | some .start =>
    match st.cache with
    | some v => { st with callers := st.callers.set i (.done v) }
    | none =>
      { st with fetches := st.fetches + 1,
                callers := st.callers.set i (.fetching (upstream st.fetches)) }
  | some (.fetching v) =>
    { st with cache := some v, callers := st.callers.set i (.done v) }
  | some (.done _) => st

/-- Run `k` concurrent readers of one expired/absent key under the given
interleaving. -/
def runReaders {α : Type} (upstream : Nat → α) (k : Nat) (schedule : List Nat) :
    FlightState α :=
  schedule.foldl (stepReader upstream) ⟨none, 0, List.replicate k .start⟩

/-! ## Entitlement gate (`channel_service.py`, `decorators.py`) -/

/-- A `Channel` row as read by `ChannelService.get_required_channels`. -/
structure Channel where
  username : String
  is_active : Bool
  created_at : Nat
deriving DecidableEq, Repr

/-- A `User` row as read by `ChannelService.check_user_channels`:
`joined_channels` is the set of channel-username keys of the JSON dict
(`user.joined_channels or {}` maps a SQL `NULL` to the empty list). -/
structure DBUser where
  telegram_id : Nat
  is_vip : Bool
  joined_channels : List String
  has_joined_required_channels : Bool
deriving DecidableEq, Repr

/-- Insertion sort by `created_at` descending: the
`order_by(Channel.created_at.desc())` of `get_required_channels`. -/
def insertByCreatedDesc (c : Channel) : List Channel → List Channel
  | [] => [c]
  | d :: rest =>
    if c.created_at ≥ d.created_at then c :: d :: rest
    else d :: insertByCreatedDesc c rest

/-- Sort a channel list by `created_at` descending. -/
def sortByCreatedDesc : List Channel → List Channel
  | [] => []
  | c :: rest => insertByCreatedDesc c (sortByCreatedDesc rest)

/-- `ChannelService.get_required_channels`: active channels, newest
first, capped to `REQUIRED_CHANNELS_COUNT`. -/
def get_required_channels (channels : List Channel) (requiredCount : Nat) : List Channel :=
  (sortByCreatedDesc (channels.filter (fun c => c.is_active))).take requiredCount

/-- `scalar_one_or_none` over `telegram_id` (unique per user). -/
def findUser (users : List DBUser) (uid : Nat) : Option DBUser :=
  users.find? (fun u => u.telegram_id == uid)

/-- The single write `check_user_channels` can perform: set
`has_joined_required_channels = True` on the row of `uid`, touching no
other field and no other row. -/
def persistJoinedFlag (users : List DBUser) (uid : Nat) : List DBUser :=
  users.map (fun u =>
    if u.telegram_id == uid then { u with has_joined_required_channels := true } else u)

/-- `ChannelService.check_user_channels`: returns the boolean outcome and
the user table after the (at most one) write.  An unknown user is `False`;
a missing channel returns `False` before any write; the flag is persisted
only when it was not already set. -/
def check_user_channels (channels : List Channel) (requiredCount : Nat)
    (users : List DBUser) (uid : Nat) : Bool × List DBUser :=
  let required := get_required_channels channels requiredCount
  if required.isEmpty then
    (true, users)
  else
    match findUser users uid with
    | none => (false, users)
    | some user =>
      if required.all (fun c => user.joined_channels.contains c.username) then
        if user.has_joined_required_channels then (true, users)
        else (true, persistJoinedFlag users uid)
      else (false, users)

/-- Outcome of the `require_subscription` decorator: either the wrapped
handler runs, or the user is shown the join prompt listing the channels
enumerated at lines 42-43 of `decorators.py`. -/
inductive GateOutcome where
  | allowed : GateOutcome
  | denied (channelList : List String) : GateOutcome
deriving DecidableEq, Repr

/-- `require_subscription` of `src/src/utils/decorators.py`: admins
bypass; otherwise `check_user_channels` decides; a denied user is
prompted with every channel of `get_required_channels()` (when that list
is empty the wrapper falls through and runs the handler).  Returns the
outcome and the user table after the check's side effect. -/
def require_subscription (adminIds : List Nat) (channels : List Channel)
    (requiredCount : Nat) (users : List DBUser) (uid : Nat) :
    GateOutcome × List DBUser :=
  if adminIds.contains uid then
    (.allowed, users)
  else
    let res := check_user_channels channels requiredCount users uid
    if res.1 then
      (.allowed, res.2)
    else
      let required := get_required_channels channels requiredCount
      if required.isEmpty then (.allowed, res.2)
      else (.denied (required.map (fun c => c.username)), res.2)

/-- The caller is still in its first atomic segment (has not yet checked
the cache). -/
def ReaderState.isStart {α : Type} : ReaderState α → Bool
  | .start => true
  | _ => false

/-- Number of callers still in their first segment. -/
def startCount {α : Type} (st : FlightState α) : Nat :=
  st.callers.countP (fun r => r.isStart)

/-- All fields that `get_crypto_prices` reads by direct indexing — every
field of the coin object except `price_change_percentage_24h`. -/
def requiredFieldsPresent (coin : CoinObj) : Bool :=
  coin.id.isSome && coin.symbol.isSome && coin.name.isSome &&
    coin.current_price.isSome && coin.market_cap.isSome &&
    coin.total_volume.isSome && coin.image.isSome

/-- Per-record normalization on a record whose directly-indexed fields are
all present: the only defaulted field is `change_24h`. -/
def normCoinTotal (coin : CoinObj) : CryptoEntry where
  id := coin.id.getD ""
  symbol := coin.symbol.getD ""
  name := coin.name.getD ""
  price := coin.current_price.getD 0
  change_24h := coin.price_change_percentage_24h.getD 0
  market_cap := coin.market_cap.getD 0
  volume := coin.total_volume.getD 0
  image := coin.image.getD ""

/-- Forget the `has_joined_required_channels` flag of a user row; two user
tables with the same image under `List.map eraseFlag` agree on every field
other than that flag. -/
def eraseFlag (u : DBUser) : DBUser :=
  { u with has_joined_required_channels := false }

/-! ## Helper lemmas: similarity arithmetic -/

theorem unionCard_pos {w1 w2 : List String} (h1 : w1 ≠ []) : 0 < unionCard w1 w2 := by
  unfold unionCard
  cases w1 with
  | nil => exact absurd rfl h1
  | cons a t => simp

theorem similarity_eq_div (s1 s2 : String) (h1 : titleWords s1 ≠ [])
    (h2 : titleWords s2 ≠ []) :
    similarity s1 s2 =
      (interCard (titleWords s1) (titleWords s2) : ℚ) /
        (unionCard (titleWords s1) (titleWords s2) : ℚ) := by
  have hu : 0 < unionCard (titleWords s1) (titleWords s2) := unionCard_pos h1
  simp only [similarity]
  rw [if_neg (by push_neg; exact ⟨h1, h2⟩), if_neg (Nat.pos_iff_ne_zero.mp hu)]

theorem similarity_eq_zero_left (s1 s2 : String) (h1 : titleWords s1 = []) :
    similarity s1 s2 = 0 := by
  simp [similarity, h1]

theorem simAbove_iff_similarity (t s : String) :
    simAbove t s = true ↔ similarity t s > 4/5 := by
  by_cases h1 : titleWords t = []
  · simp only [simAbove, similarity_eq_zero_left t s h1, h1, gt_iff_lt]
    simp
    norm_num
  · by_cases h2 : titleWords s = []
    · simp only [simAbove, similarity, h1, h2, gt_iff_lt]
      simp
      norm_num
    · have hu : 0 < unionCard (titleWords t) (titleWords s) := unionCard_pos h1
      rw [gt_iff_lt, similarity_eq_div t s h1 h2,
        div_lt_div_iff₀ (by norm_num) (by exact_mod_cast hu)]
      simp only [simAbove, Bool.and_eq_true, Bool.not_eq_true', decide_eq_true_eq]
      constructor
      · rintro ⟨⟨_, _⟩, h⟩
        exact_mod_cast (by omega :
          4 * unionCard (titleWords t) (titleWords s) <
            interCard (titleWords t) (titleWords s) * 5)
      · intro h
        have h' : 4 * unionCard (titleWords t) (titleWords s) <
            interCard (titleWords t) (titleWords s) * 5 := by exact_mod_cast h
        refine ⟨⟨?_, ?_⟩, by omega⟩
        · simp [h1]
        · simp [h2]

theorem simAbove_eq_decide (t s : String) :
    simAbove t s = decide (similarity t s > 4/5) := by
  by_cases h : similarity t s > 4/5
  · rw [(simAbove_iff_similarity t s).mpr h, decide_eq_true h]
  · rw [decide_eq_false h, ← Bool.not_eq_true]
    exact fun hc => h ((simAbove_iff_similarity t s).mp hc)

/-! ## Helper lemmas: dedup structure -/

theorem removeDuplicatesAux_idem (l : List NewsItem) :
    ∀ seen, removeDuplicatesAux seen (removeDuplicatesAux seen l) =
      removeDuplicatesAux seen l := by
  induction l with
  | nil => intro seen; rfl
  | cons item rest ih =>
    intro seen
    by_cases hd : isDuplicate seen (pyToLower item.title) = true
    · simp only [removeDuplicatesAux, hd, if_true]
      exact ih seen
    · simp only [removeDuplicatesAux, hd, if_false, Bool.false_eq_true]
      exact congrArg _ (ih (pyToLower item.title :: seen))

theorem removeDuplicatesAux_eq_specAux (l : List NewsItem) :
    ∀ (seen : List String) (acc : List NewsItem),
      (∀ t, seen.any (fun s => simAbove t s) =
        acc.any (fun a => decide (similarity t (pyToLower a.title) > 4/5))) →
      removeDuplicatesAux seen l = specDedupeAux acc l := by
  induction l with
  | nil => intro seen acc _; rfl
  | cons item rest ih =>
    intro seen acc h
    simp only [removeDuplicatesAux, specDedupeAux, isDuplicate]
    by_cases hd : acc.any (fun a =>
        decide (similarity (pyToLower item.title) (pyToLower a.title) > 4/5)) = true
    · rw [if_pos (by rw [h (pyToLower item.title)]; exact hd), if_pos hd]
      exact ih seen acc h
    · rw [if_neg (by rw [h (pyToLower item.title)]; exact hd), if_neg hd]
      refine congrArg _ (ih _ _ (fun t => ?_))
      simp only [List.any_cons, List.any_append, List.any_nil, Bool.or_false]
      rw [simAbove_eq_decide t (pyToLower item.title), h t, Bool.or_comm]

/-! ## Claim theorems: news dedup -/

/-- **C3, counterexample.**  The claim says a candidate whose token-set
similarity to a seen title is exactly `0.8` is dropped.  The source
compares with `> 0.8` (strictly), so the second item below — similarity
exactly `4/5` with the first — is kept. -/
theorem point_eight_similarity_kept :
    similarity "a b c d e" "a b c d" = 4/5 ∧
    removeDuplicates
      [⟨"a b c d", "l1", "", "s1", 2, "اقتصادی"⟩,
       ⟨"a b c d e", "l2", "", "s2", 1, "اقتصادی"⟩] =
      [⟨"a b c d", "l1", "", "s1", 2, "اقتصادی"⟩,
       ⟨"a b c d e", "l2", "", "s2", 1, "اقتصادی"⟩] := by
  constructor
  · rw [similarity_eq_div _ _ (by decide) (by decide),
      (by decide : interCard (titleWords "a b c d e") (titleWords "a b c d") = 4),
      (by decide : unionCard (titleWords "a b c d e") (titleWords "a b c d") = 5)]
    norm_num
  · decide

/-- **C3, amended.**  The dedup pass walks the list keeping a set of
accepted titles and drops a candidate exactly when its token-set
similarity (Jaccard index over whitespace-tokenized, lower-cased title
words with the stop-word list removed) to some previously accepted title
is *strictly greater than* `0.8`; a candidate at exactly `0.8` is kept.
`specDedupe` is that description written out directly; the source's
`_remove_duplicates` computes it. -/
theorem dedupe_strict_threshold (items : List NewsItem) :
    removeDuplicates items = specDedupe items :=
  removeDuplicatesAux_eq_specAux items [] [] (fun _ => rfl)

/-- **C4, counterexample.**  The claim says dedup keeps exactly one of
the two titles differing only in a trailing `"."`.  Tokenized on
whitespace, the trailing period changes the last word, giving Jaccard
similarity `6/8 = 0.75 ≤ 0.8`, so the pass keeps both items. -/
theorem trailing_punct_titles_not_collapsed :
    (removeDuplicates
      [⟨"بانک مرکزی نرخ بهره را افزایش داد", "l1", "", "تسنیم", 2, "اقتصادی"⟩,
       ⟨"بانک مرکزی نرخ بهره را افزایش داد.", "l2", "", "فارس", 1, "اقتصادی"⟩]).length ≠ 1 := by
  decide

/-- **C4, amended.**  On the two titles differing only in the trailing
punctuation, coming from two different feeds, `_remove_duplicates` keeps
*both* items: their similarity is `3/4`, below the `> 0.8` drop
threshold. -/
theorem trailing_punct_titles_both_kept :
    similarity "بانک مرکزی نرخ بهره را افزایش داد." "بانک مرکزی نرخ بهره را افزایش داد" = 3/4 ∧
    removeDuplicates
      [⟨"بانک مرکزی نرخ بهره را افزایش داد", "l1", "", "تسنیم", 2, "اقتصادی"⟩,
       ⟨"بانک مرکزی نرخ بهره را افزایش داد.", "l2", "", "فارس", 1, "اقتصادی"⟩] =
      [⟨"بانک مرکزی نرخ بهره را افزایش داد", "l1", "", "تسنیم", 2, "اقتصادی"⟩,
       ⟨"بانک مرکزی نرخ بهره را افزایش داد.", "l2", "", "فارس", 1, "اقتصادی"⟩] := by
  constructor
  · rw [similarity_eq_div _ _ (by decide) (by decide),
      (by decide : interCard (titleWords "بانک مرکزی نرخ بهره را افزایش داد.")
        (titleWords "بانک مرکزی نرخ بهره را افزایش داد") = 6),
      (by decide : unionCard (titleWords "بانک مرکزی نرخ بهره را افزایش داد.")
        (titleWords "بانک مرکزی نرخ بهره را افزایش داد") = 8)]
    norm_num
  · decide

/-- **C7.**  Applying the dedup pass twice yields the same result as
applying it once. -/
theorem dedupe_idempotent (items : List NewsItem) :
    removeDuplicates (removeDuplicates items) = removeDuplicates items :=
  removeDuplicatesAux_idem items []

/-- **C10.**  When both titles' word sets are empty after stop-word
removal — in particular for two identical all-stop-word titles —
`_similarity` returns `0.0` and the dedup pass keeps both items. -/
theorem stopword_titles_never_collapsed (i1 i2 : NewsItem)
    (h1 : titleWords (pyToLower i1.title) = [])
    (h2 : titleWords (pyToLower i2.title) = []) :
    similarity (pyToLower i1.title) (pyToLower i2.title) = 0 ∧
    removeDuplicates [i1, i2] = [i1, i2] := by
  refine ⟨similarity_eq_zero_left _ _ h1, ?_⟩
  simp [removeDuplicates, removeDuplicatesAux, isDuplicate, simAbove, h1, h2]

/-- **C10, witness**: the theorem applied to two character-for-character
identical titles made only of stop words, from two different feeds. -/
theorem stopword_titles_never_collapsed_witness :
    similarity (pyToLower "در و با") (pyToLower "در و با") = 0 ∧
    removeDuplicates
      [⟨"در و با", "l1", "", "تسنیم", 2, "اقتصادی"⟩,
       ⟨"در و با", "l2", "", "فارس", 1, "اقتصادی"⟩] =
      [⟨"در و با", "l1", "", "تسنیم", 2, "اقتصادی"⟩,
       ⟨"در و با", "l2", "", "فارس", 1, "اقتصادی"⟩] :=
  stopword_titles_never_collapsed
    ⟨"در و با", "l1", "", "تسنیم", 2, "اقتصادی"⟩
    ⟨"در و با", "l2", "", "فارس", 1, "اقتصادی"⟩
    (by decide) (by decide)

/-! ## Claim theorems: fetch fallback and adapter defaults -/

/-- **C1, counterexample.**  In `src/src/services/price_service.py` a
fetch failure after the TTL entry has expired returns the empty dict
`{}` even though a previously cached value exists: the claim's
stale-but-available fallback does not hold there. -/
theorem expired_cache_failure_returns_empty :
    get_gold_prices (some ⟨mapGold [] 0, 30⟩) 31 .timeout =
      (none, some ⟨mapGold [] 0, 30⟩) ∧
    (none : Option GoldPayload) ≠ some (mapGold [] 0) := by
  exact ⟨rfl, by simp⟩

/-- **C1, amended.**  Only the `MarketPulsePro` revision implements the
stale-but-available fallback: on any adapter failure its
`get_gold_prices` returns the previous cached value however old (`cache`)
— the empty dict only when none exists — and leaves the cache untouched.
Every `src/src` entry point returns the explicitly empty payload on a
failure at an expired/absent key regardless of any previous value:
`get_gold_prices` and `get_currency_prices` return `{}` (`none`),
`get_crypto_prices` returns `[]`, and `get_all_prices` — whose three
sub-fetches absorb their own failures, so "all adapters fail" reaches it
as three empty sub-results — returns the merged empty payload
`⟨none, none, [], none⟩`.  No entry point of either revision propagates
an error to the consumer (all the functions are total). -/
theorem fallback_policy_amended
    (cache : Option MGoldPayload) (ctime : Option Nat) (now : Nat)
    (resp : FetchOutcome TGJUData)
    (cacheS : Option (TTLEntry GoldPayload)) (nowS : Nat)
    (respS : FetchOutcome TGJUData)
    (cacheC : Option (TTLEntry CurrencyPayload)) (respC : FetchOutcome TGJUData)
    (cacheCr : Option (TTLEntry (List CryptoEntry)))
    (respCr : FetchOutcome (List CoinObj))
    (cacheA : Option (TTLEntry CombinedPrices))
    (hfail : resp.failed = true) (hfailS : respS.failed = true)
    (hfailC : respC.failed = true) (hfailCr : respCr.failed = true)
    (hmiss : ttlLookup cacheS nowS = none)
    (hmissC : ttlLookup cacheC nowS = none)
    (hmissCr : ttlLookup cacheCr nowS = none)
    (hmissA : ttlLookup cacheA nowS = none) :
    mpp_get_gold_prices cache ctime now resp = (cache, cache, ctime) ∧
    get_gold_prices cacheS nowS respS = (none, cacheS) ∧
    get_currency_prices cacheC nowS respC = (none, cacheC) ∧
    get_crypto_prices cacheCr nowS respCr = ([], cacheCr) ∧
    (get_all_prices cacheA nowS none none []).1 = ⟨none, none, [], none⟩ := by
  refine ⟨?_, ?_, ?_, ?_, ?_⟩
  · unfold mpp_get_gold_prices
    split
    · rfl
    · cases resp with
      | timeout => rfl
      | exn => rfl
      | response s b =>
        simp only [FetchOutcome.failed, bne_iff_ne, ne_eq] at hfail
        simp [hfail]
  · unfold get_gold_prices
    rw [hmiss]
    cases respS with
    | timeout => rfl
    | exn => rfl
    | response s b =>
      simp only [FetchOutcome.failed, bne_iff_ne, ne_eq] at hfailS
      simp [hfailS]
  · unfold get_currency_prices
    rw [hmissC]
    cases respC with
    | timeout => rfl
    | exn => rfl
    | response s b =>
      simp only [FetchOutcome.failed, bne_iff_ne, ne_eq] at hfailC
      simp [hfailC]
  · unfold get_crypto_prices
    rw [hmissCr]
    cases respCr with
    | timeout => rfl
    | exn => rfl
    | response s b =>
      simp only [FetchOutcome.failed, bne_iff_ne, ne_eq] at hfailCr
      simp [hfailCr]
  · unfold get_all_prices
    rw [hmissA]
    rfl

/-- **C1, witness** for `fallback_policy_amended`: an exception with a
(stale) cached value in the `MarketPulsePro` revision; in `src/src`, a
500 status with an expired gold entry, a currency timeout, a 404 crypto
status, and the combined fetch whose three sub-results are all empty. -/
theorem fallback_policy_amended_witness :
    mpp_get_gold_prices (some (mpp_map_gold [] 5)) (some 0) 100 .exn =
      (some (mpp_map_gold [] 5), some (mpp_map_gold [] 5), some 0) ∧
    get_gold_prices (some ⟨mapGold [] 0, 30⟩) 31 (.response 500 []) =
      (none, some ⟨mapGold [] 0, 30⟩) ∧
    get_currency_prices none 31 .timeout = (none, none) ∧
    get_crypto_prices none 31 (.response 404 []) = ([], none) ∧
    (get_all_prices none 31 none none []).1 = ⟨none, none, [], none⟩ :=
  fallback_policy_amended (some (mpp_map_gold [] 5)) (some 0) 100 .exn
    (some ⟨mapGold [] 0, 30⟩) 31 (.response 500 []) none .timeout
    none (.response 404 []) none rfl rfl rfl rfl rfl rfl rfl rfl

/-- `normalizeCoins` succeeds record-by-record when every directly-indexed
field is present, defaulting only `change_24h`. -/
theorem normCoin_required (coin : CoinObj) (h : requiredFieldsPresent coin = true) :
    normCoin coin = some (normCoinTotal coin) := by
  simp only [requiredFieldsPresent, Bool.and_eq_true, Option.isSome_iff_exists] at h
  obtain ⟨⟨⟨⟨⟨⟨⟨i, hi⟩, sy, hsy⟩, n, hn⟩, pr, hpr⟩, mc, hmc⟩, tv, htv⟩, im, him⟩ := h
  simp [normCoin, normCoinTotal, hi, hsy, hn, hpr, hmc, htv, him]

/-- `normalizeCoins` on an all-well-formed list is the per-record map. -/
theorem normalizeCoins_total (data : List CoinObj)
    (h : ∀ c ∈ data, requiredFieldsPresent c = true) :
    normalizeCoins data = some (data.map normCoinTotal) := by
  induction data with
  | nil => rfl
  | cons coin rest ih =>
    simp only [normalizeCoins, normCoin_required coin (h coin (by simp)),
      ih (fun c hc => h c (by simp [hc])), List.map_cons]

/-- **C5, counterexample.**  A 200 response containing a single coin
object that merely lacks `market_cap` makes the whole crypto fetch
return `[]` (the `KeyError` escapes to the blanket `except`), instead of
one entry with the field defaulted to `0` as the claim states. -/
theorem missing_market_cap_empties_crypto_fetch :
    (get_crypto_prices none 0 (.response 200
      [⟨some "bitcoin", some "btc", some "Bitcoin", some 50000, some 2,
        none, some 100, some "img"⟩])).1 = [] ∧
    (get_crypto_prices none 0 (.response 200
      [⟨some "bitcoin", some "btc", some "Bitcoin", some 50000, some 2,
        none, some 100, some "img"⟩])).1.length ≠ 1 := by
  exact ⟨rfl, by decide⟩

/-- **C5, amended.**  In the crypto adapter only
`price_change_percentage_24h` is defaulted (to `0`); every other field is
read by direct indexing, so a record missing one of those aborts the
whole fetch with `[]`.  When all directly-indexed fields are present the
adapter returns exactly one normalized entry per record with the missing
change defaulted to `0`; in the gold adapter a key whose `"p"` does not
parse (or is absent) defaults to `0` via `.get(key, 0)`. -/
theorem adapter_defaults_amended (cache : Option (TTLEntry (List CryptoEntry)))
    (now : Nat) (data : List CoinObj) (dataG : TGJUData) (key : String)
    (hwf : ∀ c ∈ data, requiredFieldsPresent c = true)
    (hmiss : ttlLookup cache now = none)
    (hkey : (tgjuGet dataG key).bind (fun it => it.p) = none) :
    (get_crypto_prices cache now (.response 200 data)).1 = data.map normCoinTotal ∧
    goldPriceOf dataG key = 0 := by
  constructor
  · unfold get_crypto_prices
    rw [hmiss]
    simp only [normalizeCoins_total data hwf]
    simp
  · unfold goldPriceOf
    rw [hkey]
    rfl

/-- **C5, witness** for `adapter_defaults_amended`: one coin object with
every directly-indexed field present and the change percentage missing
normalizes to a single entry with `change_24h = 0`; the absent gold key
defaults to `0`. -/
theorem adapter_defaults_amended_witness :
    (get_crypto_prices none 7 (.response 200
      [⟨some "bitcoin", some "btc", some "Bitcoin", some 50000, none,
        some 900000, some 100, some "img"⟩])).1 =
      [⟨some "bitcoin", some "btc", some "Bitcoin", some 50000, none,
        some 900000, some 100, some "img"⟩].map normCoinTotal ∧
    goldPriceOf [] "price_gram_18k" = 0 :=
  adapter_defaults_amended none 7
    [⟨some "bitcoin", some "btc", some "Bitcoin", some 50000, none,
      some 900000, some 100, some "img"⟩]
    [] "price_gram_18k" (by decide) rfl rfl

/-! ## Claim theorems: scheduler counters -/

/-- **C9, counterexample.**  A tick on which every adapter failed — all
three sub-results empty, so the combined payload is the explicitly empty
one — still increments `price_updates` and advances
`last_price_update`, because `get_all_prices` absorbs failures instead
of raising. -/
theorem failed_tick_still_increments :
    (get_all_prices none 100 none none []).1 =
      ⟨none, none, [], none⟩ ∧
    update_prices ⟨0, 0, none, none⟩ 100
        (.ok (get_all_prices none 100 none none []).1) =
      ⟨1, 0, some 100, none⟩ := by
  exact ⟨rfl, rfl⟩

/-- **C9, amended.**  The per-category counter and timestamp advance
exactly when the tick's awaited fetch raises no exception; since the
fetches absorb all adapter failures and return a (possibly empty)
payload instead of raising, every tick — including one whose adapters
all failed — increments the counter and advances the timestamp, and only
the (dead in practice) exception arm leaves the statistics unchanged. -/
theorem tick_counters_amended (stats : SchedStats) (now : Nat)
    (cache : Option (TTLEntry CombinedPrices)) (gold : Option GoldPayload)
    (currency : Option CurrencyPayload) (crypto : List CryptoEntry)
    (news : List NewsItem) :
    update_prices stats now (.ok (get_all_prices cache now gold currency crypto).1) =
      { stats with price_updates := stats.price_updates + 1,
                   last_price_update := some now } ∧
    update_news stats now (.ok news) =
      { stats with news_updates := stats.news_updates + 1,
                   last_news_update := some now } ∧
    (∀ e : Unit, update_prices stats now (.error e) = stats) ∧
    (∀ e : Unit, update_news stats now (.error e) = stats) :=
  ⟨rfl, rfl, fun _ => rfl, fun _ => rfl⟩

/-! ## Claim theorems: single-flight -/

theorem countP_set_eq {α : Type} (l : List α) (i : Nat) (a b : α) (p : α → Bool)
    (h : l.get? i = some a) :
    (l.set i b).countP p + (if p a then 1 else 0) =
      l.countP p + (if p b then 1 else 0) := by
  induction l generalizing i with
  | nil => simp at h
  | cons x xs ih =>
    cases i with
    | zero =>
      simp only [List.get?] at h
      injection h with h
      subst h
      simp only [List.set, List.countP_cons]
      omega
    | succ n =>
      simp only [List.get?] at h
      simp only [List.set, List.countP_cons]
      have := ih n h
      omega

theorem stepReader_measure {α : Type} (upstream : Nat → α) (st : FlightState α)
    (i : Nat) :
    (stepReader upstream st i).fetches + startCount (stepReader upstream st i) ≤
      st.fetches + startCount st := by
  unfold stepReader
  cases hg : st.callers.get? i with
  | none => exact le_refl _
  | some r =>
    cases r with
    | start =>
      cases st.cache with
      | some v =>
        have hcnt : (st.callers.set i (ReaderState.done v)).countP
              (fun r => r.isStart) + 1 =
            st.callers.countP (fun r => r.isStart) :=
          countP_set_eq st.callers i ReaderState.start (ReaderState.done v)
            (fun r => r.isStart) hg
        simp only [startCount]
        omega
      | none =>
        have hcnt : (st.callers.set i
              (ReaderState.fetching (upstream st.fetches))).countP
              (fun r => r.isStart) + 1 =
            st.callers.countP (fun r => r.isStart) :=
          countP_set_eq st.callers i ReaderState.start
            (ReaderState.fetching (upstream st.fetches)) (fun r => r.isStart) hg
        simp only [startCount]
        omega
    | fetching v =>
      have hcnt : (st.callers.set i (ReaderState.done v)).countP
            (fun r => r.isStart) =
          st.callers.countP (fun r => r.isStart) :=
        countP_set_eq st.callers i (ReaderState.fetching v) (ReaderState.done v)
          (fun r => r.isStart) hg
      simp only [startCount]
      omega
    | done v => exact le_refl _

theorem foldl_stepReader_measure {α : Type} (upstream : Nat → α)
    (schedule : List Nat) :
    ∀ st : FlightState α,
      (schedule.foldl (stepReader upstream) st).fetches +
          startCount (schedule.foldl (stepReader upstream) st) ≤
        st.fetches + startCount st := by
  induction schedule with
  | nil => intro st; exact le_refl _
  | cons i rest ih =>
    intro st
    exact le_trans (ih (stepReader upstream st i)) (stepReader_measure upstream st i)

theorem startCount_replicate {α : Type} (k : Nat) :
    startCount (⟨none, 0, List.replicate k .start⟩ : FlightState α) = k := by
  simp only [startCount]
  induction k with
  | zero => rfl
  | succ n ih =>
    rw [List.replicate_succ, List.countP_cons, ih]
    rfl

/-- **C2, counterexample.**  With no lock in the source, two concurrent
readers of the same absent/expired key can both observe a miss before
either writes: the interleaving `[0, 1, 0, 1]` issues **two** upstream
fetches — not at most one — and when the two fetches return different
values the two callers observe different results. -/
theorem two_readers_issue_two_fetches :
    (runReaders (fun n => n) 2 [0, 1, 0, 1]).fetches = 2 ∧
    (runReaders (fun n => n) 2 [0, 1, 0, 1]).callers =
      [ReaderState.done 0, ReaderState.done 1] := by
  exact ⟨rfl, rfl⟩

/-- **C2, amended.**  The read path has no single-flight discipline, only
the trivial per-caller bound: each caller issues at most one upstream
fetch, so `k` concurrent reads of an expired key issue at most `k` (not
at most one) upstream fetches, under every interleaving. -/
theorem reader_fetch_bound {α : Type} (upstream : Nat → α) (k : Nat)
    (schedule : List Nat) :
    (runReaders upstream k schedule).fetches ≤ k := by
  have h := foldl_stepReader_measure upstream schedule
    (⟨none, 0, List.replicate k .start⟩ : FlightState α)
  rw [startCount_replicate,
    show (⟨none, 0, List.replicate k .start⟩ : FlightState α).fetches = 0 from rfl] at h
  unfold runReaders
  omega

/-! ## Claim theorems: entitlement gate -/

/-- **C6, counterexample.**  Non-admin user joined to `"@a"` but not
`"@b"`, with both channels required: the denial prompt enumerates *all*
required channels `["@a", "@b"]`, not exactly the missing `["@b"]` the
claim states. -/
theorem denial_includes_already_joined_channel :
    require_subscription [] [⟨"@a", true, 2⟩, ⟨"@b", true, 1⟩] 2
      [⟨1, false, ["@a"], false⟩] 1 =
      (.denied ["@a", "@b"], [⟨1, false, ["@a"], false⟩]) ∧
    GateOutcome.denied ["@a", "@b"] ≠ GateOutcome.denied ["@b"] := by
  exact ⟨rfl, by decide⟩

/-- **C6, amended.**  For a non-admin user with a user record that is
missing at least one required, active channel, the gate's outcome is a
denial — it never throws, the check is total and absorbs its own errors
— listing the usernames of *all* currently required channels (a superset
of the missing ones), and the user table is left unchanged. -/
theorem denial_lists_required_channels (adminIds : List Nat)
    (channels : List Channel) (requiredCount : Nat) (users : List DBUser)
    (uid : Nat) (user : DBUser) (c : Channel)
    (hadmin : adminIds.contains uid = false)
    (hfind : findUser users uid = some user)
    (hc : c ∈ get_required_channels channels requiredCount)
    (hmiss : user.joined_channels.contains c.username = false) :
    require_subscription adminIds channels requiredCount users uid =
      (.denied ((get_required_channels channels requiredCount).map
        (fun ch => ch.username)), users) := by
  have hne : (get_required_channels channels requiredCount).isEmpty = false := by
    cases hreq : get_required_channels channels requiredCount with
    | nil => rw [hreq] at hc; simp at hc
    | cons x xs => rfl
  have hall : (get_required_channels channels requiredCount).all
      (fun ch => user.joined_channels.contains ch.username) = false := by
    rw [List.all_eq_false]
    exact ⟨c, hc, by simpa using hmiss⟩
  have hcheck : check_user_channels channels requiredCount users uid =
      (false, users) := by
    simp only [check_user_channels, hne, hfind, hall, Bool.false_eq_true,
      eq_self_iff_true, if_true, if_false]
  simp only [require_subscription, hadmin, hcheck, hne, Bool.false_eq_true,
    eq_self_iff_true, if_true, if_false]

/-- **C6, witness** for `denial_lists_required_channels` at the concrete
two-channel state. -/
theorem denial_lists_required_channels_witness :
    require_subscription [] [⟨"@a", true, 2⟩, ⟨"@b", true, 1⟩] 2
      [⟨1, false, ["@a"], false⟩] 1 =
      (.denied ((get_required_channels [⟨"@a", true, 2⟩, ⟨"@b", true, 1⟩] 2).map
        (fun ch => ch.username)), [⟨1, false, ["@a"], false⟩]) :=
  denial_lists_required_channels [] [⟨"@a", true, 2⟩, ⟨"@b", true, 1⟩] 2
    [⟨1, false, ["@a"], false⟩] 1 ⟨1, false, ["@a"], false⟩ ⟨"@b", true, 1⟩
    rfl rfl (by decide) rfl

theorem persistJoinedFlag_eraseFlag (users : List DBUser) (uid : Nat) :
    (persistJoinedFlag users uid).map eraseFlag = users.map eraseFlag := by
  induction users with
  | nil => rfl
  | cons u rest ih =>
    simp only [persistJoinedFlag, List.map_cons] at ih ⊢
    rw [ih]
    by_cases h : u.telegram_id == uid
    · simp [h, eraseFlag]
    · simp [h]

/-- **C8.**  The subscription check persists the
`has_joined_required_channels` flag at most once: whenever the row of
`uid` already carries the flag, the check writes nothing (the user table
is returned unchanged); and in every case the check either leaves the
table unchanged or performs exactly the single-flag write
`persistJoinedFlag`, so no field other than that flag is ever modified
(third conjunct: both tables agree after forgetting the flag). -/
theorem joined_flag_write_once (channels : List Channel) (requiredCount : Nat)
    (users : List DBUser) (uid : Nat) :
    ((∀ u ∈ users, u.telegram_id = uid → u.has_joined_required_channels = true) →
      (check_user_channels channels requiredCount users uid).2 = users) ∧
    ((check_user_channels channels requiredCount users uid).2 = users ∨
      (check_user_channels channels requiredCount users uid).2 =
        persistJoinedFlag users uid) ∧
    (check_user_channels channels requiredCount users uid).2.map eraseFlag =
      users.map eraseFlag := by
  cases he : (get_required_channels channels requiredCount).isEmpty with
  | true =>
    have hsnd : (check_user_channels channels requiredCount users uid).2 = users := by
      simp only [check_user_channels, he, eq_self_iff_true, if_true]
    rw [hsnd]
    exact ⟨fun _ => rfl, Or.inl rfl, rfl⟩
  | false =>
    cases hf : findUser users uid with
    | none =>
      have hsnd : (check_user_channels channels requiredCount users uid).2 = users := by
        simp only [check_user_channels, he, hf, Bool.false_eq_true, if_false]
      rw [hsnd]
      exact ⟨fun _ => rfl, Or.inl rfl, rfl⟩
    | some user =>
      cases hj : (get_required_channels channels requiredCount).all
          (fun c => user.joined_channels.contains c.username) with
      | false =>
        have hsnd : (check_user_channels channels requiredCount users uid).2 = users := by
          simp only [check_user_channels, he, hf, hj, Bool.false_eq_true,
            eq_self_iff_true, if_true, if_false]
        rw [hsnd]
        exact ⟨fun _ => rfl, Or.inl rfl, rfl⟩
      | true =>
        cases hflag : user.has_joined_required_channels with
        | true =>
          have hsnd : (check_user_channels channels requiredCount users uid).2 = users := by
            simp only [check_user_channels, he, hf, hj, hflag, Bool.false_eq_true,
              eq_self_iff_true, if_true, if_false]
          rw [hsnd]
          exact ⟨fun _ => rfl, Or.inl rfl, rfl⟩
        | false =>
          have hsnd : (check_user_channels channels requiredCount users uid).2 =
              persistJoinedFlag users uid := by
            simp only [check_user_channels, he, hf, hj, hflag, Bool.false_eq_true,
              eq_self_iff_true, if_true, if_false]
          rw [hsnd]
          refine ⟨fun hall => ?_, Or.inr rfl, persistJoinedFlag_eraseFlag users uid⟩
          have hf' : users.find? (fun u => u.telegram_id == uid) = some user := hf
          have hmem : user ∈ users := List.mem_of_find?_eq_some hf'
          have hid : user.telegram_id = uid := by
            have := List.find?_some hf'
            simpa using this
          rw [hall user hmem hid] at hflag
          exact absurd hflag (by simp)

/-- **C8, witness**: the first conjunct of `joined_flag_write_once`
applied to a state whose single user already carries the flag. -/
theorem joined_flag_write_once_witness :
    (check_user_channels [⟨"@x", true, 1⟩] 1 [⟨1, false, ["@x"], true⟩] 1).2 =
      [⟨1, false, ["@x"], true⟩] :=
  (joined_flag_write_once [⟨"@x", true, 1⟩] 1 [⟨1, false, ["@x"], true⟩] 1).1
    (by decide)

end MarketPulse
